import Mathlib

/-!
# Verification of the PBStx frame transport (miniecu, `src/fw/pbstx.c`)

Shallow embedding of the byte-wise receiver/sender state machine of the
PBStx serial protocol.  The channel primitives (`chnGetTimeout`,
`chnReadTimeout`, write/put), the fault indicator (`alert_component`) and
the cooperative-termination flag (`chThdShouldTerminate`) are external
collaborators of the C code; they are modelled respectively as a stream of
read tokens, a trace of emitted alert levels, and a schedule of flag
readings (one per loop iteration).  Machine bytes are `Nat` with explicit
`% 256` where the C narrows to `uint8_t`; ChibiOS message codes are `Int`.
-/

/-- One observable outcome of a single-byte channel read: a delivered byte,
a timeout, or a channel reset.  The receive channel is a finite list of
these tokens; an exhausted list behaves as a timeout. -/
inductive Tok where
  | byte (b : Nat)
  | timeout
  | reset
deriving DecidableEq, Repr

/-- Fault levels passed to `alert_component(ALS_COMM, _)`. -/
inductive Alert where
  | normal
  | fail
deriving DecidableEq, Repr

/-- `enum rx_state` of `pbstx.c`. -/
inductive RxSt where
  | waitStart
  | seqSt
  | msgidSt
  | lenSt
  | payloadSt
  | crcSt
deriving DecidableEq, Repr

/-- ChibiOS `RDY_OK` (`MSG_OK` in `fw_common.h`). -/
def MSG_OK : Int := 0

/-- ChibiOS `RDY_RESET` (`MSG_RESET` in `fw_common.h`). -/
def MSG_RESET : Int := -2

/-- ChibiOS `Q_TIMEOUT`. -/
def Q_TIMEOUT : Int := -1

/-- ChibiOS `Q_RESET`. -/
def Q_RESET : Int := -2

/-- `#define HDR_START 0xa5` in `pbstx.c`. -/
def HDR_START : Nat := 0xa5

/-- `#define MAX_PAYLOAD 255` in `pbstx.c`. -/
def MAX_PAYLOAD : Nat := 255

/-- Modelled from the spec: `PIOS_CRC_updateByte` lives in OpenPilot's
`pios_crc.h`, which is not part of this repository; the spec (§4.1)
describes it as one byte-wise CRC-8 step over a running accumulator, a pure
function.  A concrete CRC-8 (polynomial 0xD5, MSB-first) realises it; every
claim depends only on sender and receiver folding the very same function
over the same bytes, not on the polynomial. -/
def PIOS_CRC_updateByte (crc b : Nat) : Nat :=
  (List.range 8).foldl
    (fun c _ => if 128 ≤ c then ((c * 2) ^^^ 0xd5) % 256 else (c * 2) % 256)
    ((crc ^^^ b) % 256)

/-- Modelled from the spec: `PIOS_CRC_updateCRC` (`crc8_update_block` in the
spec, §4.1) folds `PIOS_CRC_updateByte` over a buffer. -/
def PIOS_CRC_updateCRC (crc : Nat) (bs : List Nat) : Nat :=
  bs.foldl PIOS_CRC_updateByte crc

/-- The static (persisting across calls) receiver variables of
`pbstx_receive`: `seq`, `pkt_crc`, `rx_state`. -/
structure RxPersist where
  seq : Nat
  pkt_crc : Nat
  rx_state : RxSt
deriving DecidableEq, Repr

/-- The caller-owned out-parameters of `pbstx_receive`: `*msgid`,
the payload buffer (modelled as the list of meaningful bytes written so
far) and `*payload_len`. -/
structure RxOut where
  msgid : Nat
  payload : List Nat
  payload_len : Nat
deriving DecidableEq, Repr

/-- Result of one `pbstx_receive` call: the returned `msg_t`, the new
static state, the out-parameters, the unconsumed channel tokens, the
unconsumed termination schedule, and the alerts emitted (in order). -/
structure RxResult where
  ret : Int
  p : RxPersist
  o : RxOut
  chan : List Tok
  ts : List Bool
  alerts : List Alert
deriving DecidableEq, Repr

/-- Modelled from the spec: ChibiOS `chnReadTimeout(stream, buf, n, tmo)`
is an external collaborator; per the spec a bulk read either delivers all
`n` bytes or fails with a timeout/reset mid-frame.  Returns
`(failure code if any, bytes obtained so far, remaining stream)`; an
exhausted stream times out. -/
def chnReadTimeout : List Tok → Nat → Option Int × List Nat × List Tok
  | chan, 0 => (none, [], chan)
  | [], _ + 1 => (some Q_TIMEOUT, [], [])
  | Tok.byte b :: rest, n + 1 =>
      let r := chnReadTimeout rest n
      (r.1, b :: r.2.1, r.2.2)
  | Tok.timeout :: rest, _ + 1 => (some Q_TIMEOUT, [], rest)
  | Tok.reset :: rest, _ + 1 => (some Q_RESET, [], rest)

/-- Result of one outer-loop iteration of `pbstx_receive`: either the
function returns (`ret`) or the loop continues (`cont`). -/
inductive StepRes where
  | ret (code : Int) (p : RxPersist) (o : RxOut) (chan : List Tok)
      (alerts : List Alert)
  | cont (p : RxPersist) (o : RxOut) (chan : List Tok) (alerts : List Alert)
deriving DecidableEq, Repr

/-- The `PR_PAYLOAD` bulk read (lines 116–127 of `pbstx.c`): read
`*payload_len` bytes; on timeout/reset signal `AL_FAIL`, resynchronize to
`PR_WAIT_START` and return the code; otherwise fold the payload into
`pkt_crc` and go to `PR_CRC`. -/
def rx_payload (p : RxPersist) (o : RxOut) (chan : List Tok) : StepRes :=
  match chnReadTimeout chan o.payload_len with
  | (some code, bs, c) =>
      StepRes.ret code { p with rx_state := RxSt.waitStart }
        { o with payload := bs } c [Alert.fail]
  | (none, bs, c) =>
      StepRes.cont
        { p with pkt_crc := PIOS_CRC_updateCRC p.pkt_crc bs,
                 rx_state := RxSt.crcSt }
        { o with payload := bs } c []

/-- One outer-loop iteration of `pbstx_receive` (lines 83–143 of
`pbstx.c`): `chnGetTimeout` (head token; timeout/reset returns at once,
lines 84–85), then the `switch (rx_state)`. -/
def rx_step (p : RxPersist) (o : RxOut) (chan : List Tok) : StepRes :=
  match chan with
  | [] => StepRes.ret Q_TIMEOUT p o [] []
  | Tok.timeout :: rest => StepRes.ret Q_TIMEOUT p o rest []
  | Tok.reset :: rest => StepRes.ret Q_RESET p o rest []
  | Tok.byte b :: rest =>
    match p.rx_state with
    | RxSt.waitStart =>
        if b = HDR_START then
          StepRes.cont { p with rx_state := RxSt.seqSt } o rest []
        else
          StepRes.cont p o rest []
    | RxSt.seqSt =>
        StepRes.cont
          { seq := b, pkt_crc := PIOS_CRC_updateByte 0 b,
            rx_state := RxSt.msgidSt } o rest []
    | RxSt.msgidSt =>
        StepRes.cont
          { p with pkt_crc := PIOS_CRC_updateByte p.pkt_crc b,
                   rx_state := RxSt.lenSt }
          { o with msgid := b } rest []
    | RxSt.lenSt =>
        if b = 0 then
          StepRes.cont
            { p with pkt_crc := PIOS_CRC_updateByte p.pkt_crc b,
                     rx_state := RxSt.crcSt }
            { o with payload_len := b } rest []
        else
          rx_payload
            { p with pkt_crc := PIOS_CRC_updateByte p.pkt_crc b,
                     rx_state := RxSt.payloadSt }
            { o with payload_len := b } rest
    | RxSt.payloadSt => rx_payload p o rest
    | RxSt.crcSt =>
        if p.pkt_crc = b then
          StepRes.ret MSG_OK { p with rx_state := RxSt.waitStart } o rest
            [Alert.normal]
        else
          StepRes.ret MSG_RESET { p with rx_state := RxSt.waitStart } o rest
            [Alert.fail]

theorem chnReadTimeout_chan_length (chan : List Tok) :
    ∀ n, (chnReadTimeout chan n).2.2.length ≤ chan.length := by
  induction chan with
  | nil => intro n; cases n <;> simp [chnReadTimeout]
  | cons t rest ih =>
      intro n
      cases n with
      | zero => simp [chnReadTimeout]
      | succ m =>
          cases t with
          | byte b =>
              simpa [chnReadTimeout] using
                Nat.le_succ_of_le (ih m)
          | timeout => simp [chnReadTimeout]
          | reset => simp [chnReadTimeout]

theorem rx_payload_cont_length (p : RxPersist) (o : RxOut) (chan : List Tok)
    (p' : RxPersist) (o' : RxOut) (c' : List Tok) (as : List Alert)
    (h : rx_payload p o chan = StepRes.cont p' o' c' as) :
    c'.length ≤ chan.length := by
  unfold rx_payload at h
  rcases hr : chnReadTimeout chan o.payload_len with ⟨fail, bs, c⟩
  rw [hr] at h
  cases fail with
  | none =>
      simp only [StepRes.cont.injEq] at h
      have := chnReadTimeout_chan_length chan o.payload_len
      rw [hr] at this
      simpa [← h.2.2.1] using this
  | some code => simp at h

theorem rx_step_cont_length (p : RxPersist) (o : RxOut) (chan : List Tok)
    (p' : RxPersist) (o' : RxOut) (c' : List Tok) (as : List Alert)
    (h : rx_step p o chan = StepRes.cont p' o' c' as) :
    c'.length < chan.length := by
  obtain ⟨s, c, st⟩ := p
  match chan with
  | [] => simp [rx_step] at h
  | Tok.timeout :: rest => simp [rx_step] at h
  | Tok.reset :: rest => simp [rx_step] at h
  | Tok.byte b :: rest =>
    simp only [List.length_cons]
    cases st
    case waitStart =>
      by_cases hb : b = HDR_START <;>
        simp only [rx_step, hb, if_pos, if_neg, if_true, if_false,
          StepRes.cont.injEq] at h <;>
      · obtain ⟨-, -, hc', -⟩ := h
        exact hc' ▸ Nat.lt_succ_self _
    case seqSt =>
      simp only [rx_step, StepRes.cont.injEq] at h
      obtain ⟨-, -, hc', -⟩ := h
      exact hc' ▸ Nat.lt_succ_self _
    case msgidSt =>
      simp only [rx_step, StepRes.cont.injEq] at h
      obtain ⟨-, -, hc', -⟩ := h
      exact hc' ▸ Nat.lt_succ_self _
    case lenSt =>
      by_cases hb : b = 0
      · simp only [rx_step, hb, if_pos, if_true, StepRes.cont.injEq] at h
        obtain ⟨-, -, hc', -⟩ := h
        exact hc' ▸ Nat.lt_succ_self _
      · simp only [rx_step, hb, if_neg, if_false] at h
        exact Nat.lt_succ_of_le (rx_payload_cont_length _ _ _ _ _ _ _ h)
    case payloadSt =>
      simp only [rx_step] at h
      exact Nat.lt_succ_of_le (rx_payload_cont_length _ _ _ _ _ _ _ h)
    case crcSt =>
      by_cases hc : c = b <;> simp [rx_step, hc] at h

/-- The `while (!chThdShouldTerminate())` loop of `pbstx_receive`
(lines 82–146): the termination flag is read once per iteration (head of
the schedule; an exhausted schedule reads `false`); when it is observed the
loop exits and the function returns `MSG_RESET` (line 146) without touching
the channel.  `acc` accumulates the alerts emitted so far. -/
def pbstx_loop (ts : List Bool) (p : RxPersist) (o : RxOut)
    (chan : List Tok) (acc : List Alert) : RxResult :=
  if ts.headD false then
    ⟨MSG_RESET, p, o, chan, ts.tail, acc⟩
  else
    match h : rx_step p o chan with
    | StepRes.ret code p' o' c' as => ⟨code, p', o', c', ts.tail, acc ++ as⟩
    | StepRes.cont p' o' c' as => pbstx_loop ts.tail p' o' c' (acc ++ as)
termination_by chan.length
decreasing_by exact rx_step_cont_length _ _ _ _ _ _ _ h

/-- `msg_t pbstx_receive(uint8_t *msgid, uint8_t *payload, uint8_t
*payload_len)` (lines 75–147 of `pbstx.c`), as a function of the
termination-flag schedule, the static state, the out-parameter contents and
the channel. -/
def pbstx_receive (ts : List Bool) (p : RxPersist) (o : RxOut)
    (chan : List Tok) : RxResult :=
  pbstx_loop ts p o chan []

/-- Modelled from the spec: outcome of one ChibiOS write primitive
(`chnWriteTimeout` / `chnPutTimeout`), external collaborators; per the spec
a write either completes or fails with a timeout/reset. -/
inductive WRes where
  | ok
  | wtimeout
  | wreset
deriving DecidableEq, Repr

/-- The `msg_t` failure code a failed write reports. -/
def wfail : WRes → Int
  | WRes.ok => MSG_OK
  | WRes.wtimeout => Q_TIMEOUT
  | WRes.wreset => Q_RESET

/-- Pop the next write outcome from the schedule; an exhausted schedule
means the write succeeds. -/
def wpop : List WRes → WRes × List WRes
  | [] => (WRes.ok, [])
  | e :: r => (e, r)

/-- Result of one `pbstx_send` call: the returned `msg_t`, the new value of
the static `tx_seq`, and the bytes actually written to the channel. -/
structure TxResult where
  ret : Int
  tx_seq : Nat
  written : List Nat
deriving DecidableEq, Repr

/-- `msg_t pbstx_send(uint8_t msgid, const uint8_t *payload, uint8_t
payload_len)` (lines 149–176 of `pbstx.c`), as a function of the static
`tx_seq` and a schedule of write outcomes (one per channel write, in
order: header, payload when `payload_len > 0`, CRC byte).  The payload
buffer is modelled as the list of its first `payload_len` bytes.  `tx_seq`
is incremented (mod 256, `uint8_t`) when the header array is built, before
any write.  A failed write aborts the remainder and returns its code. -/
def pbstx_send (msgid : Nat) (payload : List Nat) (payload_len : Nat)
    (tx_seq : Nat) (wr : List WRes) : TxResult :=
  let seqB := tx_seq % 256
  let tx_seq1 := (tx_seq + 1) % 256
  let header := [HDR_START, seqB, msgid, payload_len]
  let crc := PIOS_CRC_updateCRC 0 [seqB, msgid, payload_len]
  let w1 := wpop wr
  match w1.1 with
  | WRes.wtimeout => ⟨Q_TIMEOUT, tx_seq1, []⟩
  | WRes.wreset => ⟨Q_RESET, tx_seq1, []⟩
  | WRes.ok =>
    if 0 < payload_len then
      let crc2 := PIOS_CRC_updateCRC crc payload
      let w2 := wpop w1.2
      match w2.1 with
      | WRes.wtimeout => ⟨Q_TIMEOUT, tx_seq1, header⟩
      | WRes.wreset => ⟨Q_RESET, tx_seq1, header⟩
      | WRes.ok =>
        let w3 := wpop w2.2
        match w3.1 with
        | WRes.wtimeout => ⟨Q_TIMEOUT, tx_seq1, header ++ payload⟩
        | WRes.wreset => ⟨Q_RESET, tx_seq1, header ++ payload⟩
        | WRes.ok => ⟨MSG_OK, tx_seq1, header ++ payload ++ [crc2]⟩
    else
      let w2 := wpop w1.2
      match w2.1 with
      | WRes.wtimeout => ⟨Q_TIMEOUT, tx_seq1, header⟩
      | WRes.wreset => ⟨Q_RESET, tx_seq1, header⟩
      | WRes.ok => ⟨MSG_OK, tx_seq1, header ++ [crc]⟩

/-- The token stream of one wire frame:
`[0xA5][seq][msgid][len][payload bytes][crc]`. -/
def frameToks (seqb msgid : Nat) (payload : List Nat) (crcb : Nat) :
    List Tok :=
  Tok.byte HDR_START :: Tok.byte seqb :: Tok.byte msgid ::
    Tok.byte payload.length ::
      (payload.map Tok.byte ++ [Tok.byte crcb])

/-- The CRC-8 a conforming frame carries: folded over
`sequence ‖ message-id ‖ length ‖ payload`, start marker excluded. -/
def frameCrc (seqb msgid : Nat) (payload : List Nat) : Nat :=
  PIOS_CRC_updateCRC 0 ([seqb, msgid, payload.length] ++ payload)

theorem chnReadTimeout_exact (bs : List Nat) (rest : List Tok) :
    chnReadTimeout (bs.map Tok.byte ++ rest) bs.length =
      (none, bs, rest) := by
  induction bs with
  | nil => simp [chnReadTimeout]
  | cons b tl ih => simp [chnReadTimeout, ih]

theorem chnReadTimeout_timeout (bs : List Nat) (rest : List Tok) (n : Nat)
    (h : bs.length < n) :
    chnReadTimeout (bs.map Tok.byte ++ Tok.timeout :: rest) n =
      (some Q_TIMEOUT, bs, rest) := by
  induction bs generalizing n with
  | nil =>
      match n, h with
      | m + 1, _ => simp [chnReadTimeout]
  | cons b tl ih =>
      match n, h with
      | m + 1, h =>
          have : tl.length < m := by simpa using h
          simp [chnReadTimeout, ih m this]

theorem chnReadTimeout_reset (bs : List Nat) (rest : List Tok) (n : Nat)
    (h : bs.length < n) :
    chnReadTimeout (bs.map Tok.byte ++ Tok.reset :: rest) n =
      (some Q_RESET, bs, rest) := by
  induction bs generalizing n with
  | nil =>
      match n, h with
      | m + 1, _ => simp [chnReadTimeout]
  | cons b tl ih =>
      match n, h with
      | m + 1, h =>
          have : tl.length < m := by simpa using h
          simp [chnReadTimeout, ih m this]

theorem pbstx_loop_term {ts : List Bool} {p : RxPersist} {o : RxOut}
    {chan : List Tok} {acc : List Alert} (hts : ts.headD false = true) :
    pbstx_loop ts p o chan acc = ⟨MSG_RESET, p, o, chan, ts.tail, acc⟩ := by
  unfold pbstx_loop
  rw [hts]
  simp

theorem pbstx_loop_ret {ts : List Bool} {p : RxPersist} {o : RxOut}
    {chan : List Tok} {acc : List Alert} {code : Int} {p' : RxPersist}
    {o' : RxOut} {c' : List Tok} {as : List Alert}
    (hts : ts.headD false = false)
    (h : rx_step p o chan = StepRes.ret code p' o' c' as) :
    pbstx_loop ts p o chan acc = ⟨code, p', o', c', ts.tail, acc ++ as⟩ := by
  unfold pbstx_loop
  rw [hts]
  simp only [Bool.false_eq_true, if_false]
  split
  case _ heq => rw [h] at heq; cases heq; rfl
  case _ heq => rw [h] at heq; cases heq

theorem pbstx_loop_cont {ts : List Bool} {p : RxPersist} {o : RxOut}
    {chan : List Tok} {acc : List Alert} {p' : RxPersist}
    {o' : RxOut} {c' : List Tok} {as : List Alert}
    (hts : ts.headD false = false)
    (h : rx_step p o chan = StepRes.cont p' o' c' as) :
    pbstx_loop ts p o chan acc = pbstx_loop ts.tail p' o' c' (acc ++ as) := by
  conv_lhs => unfold pbstx_loop
  rw [hts]
  simp only [Bool.false_eq_true, if_false]
  split
  case _ heq => rw [h] at heq; cases heq
  case _ heq => rw [h] at heq; cases heq; rfl

theorem pbstx_loop0_ret {p : RxPersist} {o : RxOut}
    {chan : List Tok} {acc : List Alert} {code : Int} {p' : RxPersist}
    {o' : RxOut} {c' : List Tok} {as : List Alert}
    (h : rx_step p o chan = StepRes.ret code p' o' c' as) :
    pbstx_loop [] p o chan acc = ⟨code, p', o', c', [], acc ++ as⟩ :=
  pbstx_loop_ret rfl h

theorem pbstx_loop0_cont {p : RxPersist} {o : RxOut}
    {chan : List Tok} {acc : List Alert} {p' : RxPersist}
    {o' : RxOut} {c' : List Tok} {as : List Alert}
    (h : rx_step p o chan = StepRes.cont p' o' c' as) :
    pbstx_loop [] p o chan acc = pbstx_loop [] p' o' c' (acc ++ as) :=
  pbstx_loop_cont rfl h

theorem rx_step_wait_hit (s c : Nat) (o : RxOut) (rest : List Tok) :
    rx_step ⟨s, c, RxSt.waitStart⟩ o (Tok.byte HDR_START :: rest) =
      StepRes.cont ⟨s, c, RxSt.seqSt⟩ o rest [] := by
  simp [rx_step]

theorem rx_step_wait_miss (s c b : Nat) (o : RxOut) (rest : List Tok)
    (h : b ≠ HDR_START) :
    rx_step ⟨s, c, RxSt.waitStart⟩ o (Tok.byte b :: rest) =
      StepRes.cont ⟨s, c, RxSt.waitStart⟩ o rest [] := by
  simp [rx_step, h]

theorem rx_step_seq (s c b : Nat) (o : RxOut) (rest : List Tok) :
    rx_step ⟨s, c, RxSt.seqSt⟩ o (Tok.byte b :: rest) =
      StepRes.cont ⟨b, PIOS_CRC_updateByte 0 b, RxSt.msgidSt⟩ o rest [] :=
  rfl

theorem rx_step_msgid (s c b : Nat) (o : RxOut) (rest : List Tok) :
    rx_step ⟨s, c, RxSt.msgidSt⟩ o (Tok.byte b :: rest) =
      StepRes.cont ⟨s, PIOS_CRC_updateByte c b, RxSt.lenSt⟩
        ⟨b, o.payload, o.payload_len⟩ rest [] :=
  rfl

theorem rx_step_len_zero (s c : Nat) (o : RxOut) (rest : List Tok) :
    rx_step ⟨s, c, RxSt.lenSt⟩ o (Tok.byte 0 :: rest) =
      StepRes.cont ⟨s, PIOS_CRC_updateByte c 0, RxSt.crcSt⟩
        ⟨o.msgid, o.payload, 0⟩ rest [] :=
  rfl

theorem rx_step_len_pos (s c b : Nat) (o : RxOut) (rest : List Tok)
    (h : b ≠ 0) :
    rx_step ⟨s, c, RxSt.lenSt⟩ o (Tok.byte b :: rest) =
      rx_payload ⟨s, PIOS_CRC_updateByte c b, RxSt.payloadSt⟩
        ⟨o.msgid, o.payload, b⟩ rest := by
  simp [rx_step, h]

theorem rx_step_crc_ok (s c b : Nat) (o : RxOut) (rest : List Tok)
    (h : c = b) :
    rx_step ⟨s, c, RxSt.crcSt⟩ o (Tok.byte b :: rest) =
      StepRes.ret MSG_OK ⟨s, c, RxSt.waitStart⟩ o rest [Alert.normal] := by
  simp [rx_step, h]

theorem rx_step_crc_bad (s c b : Nat) (o : RxOut) (rest : List Tok)
    (h : c ≠ b) :
    rx_step ⟨s, c, RxSt.crcSt⟩ o (Tok.byte b :: rest) =
      StepRes.ret MSG_RESET ⟨s, c, RxSt.waitStart⟩ o rest [Alert.fail] := by
  simp [rx_step, h]

theorem rx_payload_exact (s c m : Nat) (pb bs : List Nat)
    (rest : List Tok) :
    rx_payload ⟨s, c, RxSt.payloadSt⟩ ⟨m, pb, bs.length⟩
        (bs.map Tok.byte ++ rest) =
      StepRes.cont ⟨s, PIOS_CRC_updateCRC c bs, RxSt.crcSt⟩
        ⟨m, bs, bs.length⟩ rest [] := by
  simp [rx_payload, chnReadTimeout_exact]

theorem frameCrc_eq (seqb m : Nat) (pl : List Nat) :
    frameCrc seqb m pl =
      PIOS_CRC_updateCRC
        (PIOS_CRC_updateByte
          (PIOS_CRC_updateByte (PIOS_CRC_updateByte 0 seqb) m) pl.length)
        pl := by
  simp [frameCrc, PIOS_CRC_updateCRC]

/-- Running the receiver from `PR_WAIT_START` over one complete frame:
the frame is consumed, the CRC decides success vs failure, the state
resynchronizes to `PR_WAIT_START`, and the out-parameters hold the frame's
message-id, payload and length (an empty payload never touches the payload
buffer). -/
theorem pbstx_receive_frame (s0 c0 seqb m : Nat) (pl : List Nat)
    (cb : Nat) (o : RxOut) (rest : List Tok) :
    pbstx_receive [] ⟨s0, c0, RxSt.waitStart⟩ o
        (frameToks seqb m pl cb ++ rest) =
      ⟨if frameCrc seqb m pl = cb then MSG_OK else MSG_RESET,
       ⟨seqb, frameCrc seqb m pl, RxSt.waitStart⟩,
       ⟨m, if pl = [] then o.payload else pl, pl.length⟩,
       rest, [],
       [if frameCrc seqb m pl = cb then Alert.normal else Alert.fail]⟩ := by
  rw [frameCrc_eq]
  unfold pbstx_receive frameToks
  simp only [List.cons_append, List.append_assoc, List.singleton_append]
  rw [pbstx_loop0_cont (rx_step_wait_hit s0 c0 o _),
    pbstx_loop0_cont (rx_step_seq s0 c0 seqb o _),
    pbstx_loop0_cont (rx_step_msgid seqb _ m o _)]
  cases pl with
  | nil =>
      rw [show (([] : List Nat)).length = 0 from rfl]
      rw [pbstx_loop0_cont (rx_step_len_zero seqb _ _ _)]
      simp only [List.map_nil, List.nil_append]
      by_cases hc :
          PIOS_CRC_updateByte
            (PIOS_CRC_updateByte (PIOS_CRC_updateByte 0 seqb) m) 0 = cb
      · rw [pbstx_loop0_ret (rx_step_crc_ok _ _ cb _ _ hc)]
        simp [hc, PIOS_CRC_updateCRC]
      · rw [pbstx_loop0_ret (rx_step_crc_bad _ _ cb _ _ hc)]
        simp [hc, PIOS_CRC_updateCRC]
  | cons x xs =>
      rw [pbstx_loop0_cont
        ((rx_step_len_pos seqb _ (x :: xs).length _ _ (by simp)).trans
          (rx_payload_exact seqb _ m _ (x :: xs) _))]
      by_cases hc :
          PIOS_CRC_updateCRC
            (PIOS_CRC_updateByte
              (PIOS_CRC_updateByte (PIOS_CRC_updateByte 0 seqb) m)
              (x :: xs).length) (x :: xs) = cb
      · rw [pbstx_loop0_ret (rx_step_crc_ok _ _ cb _ _ hc)]
        simp only [List.length_cons] at hc
        simp [hc]
      · rw [pbstx_loop0_ret (rx_step_crc_bad _ _ cb _ _ hc)]
        simp only [List.length_cons] at hc
        simp [hc]

theorem rx_payload_fail_timeout (s c m l : Nat) (pb bs : List Nat)
    (rest : List Tok) (h : bs.length < l) :
    rx_payload ⟨s, c, RxSt.payloadSt⟩ ⟨m, pb, l⟩
        (bs.map Tok.byte ++ Tok.timeout :: rest) =
      StepRes.ret Q_TIMEOUT ⟨s, c, RxSt.waitStart⟩ ⟨m, bs, l⟩ rest
        [Alert.fail] := by
  simp [rx_payload, chnReadTimeout_timeout _ _ _ h]

theorem rx_payload_fail_reset (s c m l : Nat) (pb bs : List Nat)
    (rest : List Tok) (h : bs.length < l) :
    rx_payload ⟨s, c, RxSt.payloadSt⟩ ⟨m, pb, l⟩
        (bs.map Tok.byte ++ Tok.reset :: rest) =
      StepRes.ret Q_RESET ⟨s, c, RxSt.waitStart⟩ ⟨m, bs, l⟩ rest
        [Alert.fail] := by
  simp [rx_payload, chnReadTimeout_reset _ _ _ h]

/-- C1: for every message-id `m`, payload `p` and payload length `n`
(`0 ≤ n ≤ 255`, `n` the payload's length), `pbstx_send` with every write
succeeding writes to the channel exactly
`0xA5, seq, m, n, payload, crc` where the sequence byte is the running
`tx_seq`, the next `tx_seq` is incremented by one mod 256, and the
trailing byte is the CRC-8 of `seq ‖ m ‖ n ‖ payload` with the start
marker excluded. -/
theorem C1_send_writes_exact_frame (msgid : Nat) (payload : List Nat)
    (payload_len tx_seq : Nat)
    (hlen : payload.length = payload_len) (hmax : payload_len ≤ 255) :
    pbstx_send msgid payload payload_len tx_seq [] =
      ⟨MSG_OK, (tx_seq + 1) % 256,
       [HDR_START, tx_seq % 256, msgid, payload_len] ++ payload ++
         [PIOS_CRC_updateCRC 0
           ([tx_seq % 256, msgid, payload_len] ++ payload)]⟩ := by
  subst hlen
  cases payload with
  | nil => simp [pbstx_send, wpop, PIOS_CRC_updateCRC]
  | cons x xs =>
      simp [pbstx_send, wpop, PIOS_CRC_updateCRC, List.foldl_append,
        Nat.succ_pos]

theorem C1_send_writes_exact_frame_witness :
    pbstx_send 16 [1, 2, 3] 3 255 [] =
      ⟨MSG_OK, 0,
       [HDR_START, 255, 16, 3] ++ [1, 2, 3] ++
         [PIOS_CRC_updateCRC 0 ([255, 16, 3] ++ [1, 2, 3])]⟩ :=
  C1_send_writes_exact_frame 16 [1, 2, 3] 3 255 rfl (by decide)

/-- C2: in the `PR_CRC` state, a received trailing byte equal to the
accumulated `pkt_crc` makes `pbstx_receive` signal `AL_NORMAL` for the
comm component and return `MSG_OK`; any other byte makes it signal
`AL_FAIL` and return `MSG_RESET`; either way the receiver state is reset
to `PR_WAIT_START` before returning. -/
theorem C2_crc_state_match_or_fail (s c b : Nat) (o : RxOut)
    (rest : List Tok) :
    pbstx_receive [] ⟨s, c, RxSt.crcSt⟩ o (Tok.byte b :: rest) =
      if c = b then
        ⟨MSG_OK, ⟨s, c, RxSt.waitStart⟩, o, rest, [], [Alert.normal]⟩
      else
        ⟨MSG_RESET, ⟨s, c, RxSt.waitStart⟩, o, rest, [], [Alert.fail]⟩ := by
  unfold pbstx_receive
  by_cases hc : c = b
  · rw [pbstx_loop0_ret (rx_step_crc_ok s c b o rest hc)]
    simp [hc]
  · rw [pbstx_loop0_ret (rx_step_crc_bad s c b o rest hc)]
    simp [hc]

/-- C3 counterexample: a single-byte read timeout in the `PR_SEQ` state —
after the start marker has been consumed and before the CRC byte has been
verified — returns `Q_TIMEOUT` with no alert signalled and the receiver
state left in `PR_SEQ`, not forced to `PR_WAIT_START`; the claim's
universal statement over every mid-frame timeout is therefore false. -/
theorem C3_counterexample_seq_timeout :
    pbstx_receive [] ⟨0, 0, RxSt.seqSt⟩ ⟨0, [], 0⟩ [Tok.timeout] =
      ⟨Q_TIMEOUT, ⟨0, 0, RxSt.seqSt⟩, ⟨0, [], 0⟩, [], [], []⟩ := by
  unfold pbstx_receive
  rw [pbstx_loop0_ret (show rx_step ⟨0, 0, RxSt.seqSt⟩ ⟨0, [], 0⟩
    [Tok.timeout] = StepRes.ret Q_TIMEOUT ⟨0, 0, RxSt.seqSt⟩ ⟨0, [], 0⟩ []
      [] from rfl)]
  rfl

/-- C3 (amended): for every timeout or channel reset that occurs during
the bulk payload read of an in-progress frame, `pbstx_receive` returns the
failure code, signals `AL_FAIL` on the fault indicator, and forces
resynchronization to `PR_WAIT_START`. -/
theorem C3_payload_timeout_resync (s c b : Nat) (o : RxOut)
    (bs : List Nat) (rest : List Tok) (e : Tok) (code : Int)
    (hb : b ≠ 0) (hlen : bs.length < b)
    (he : (e = Tok.timeout ∧ code = Q_TIMEOUT) ∨
          (e = Tok.reset ∧ code = Q_RESET)) :
    pbstx_receive [] ⟨s, c, RxSt.lenSt⟩ o
        (Tok.byte b :: (bs.map Tok.byte ++ e :: rest)) =
      ⟨code, ⟨s, PIOS_CRC_updateByte c b, RxSt.waitStart⟩,
       ⟨o.msgid, bs, b⟩, rest, [], [Alert.fail]⟩ := by
  unfold pbstx_receive
  rcases he with ⟨he, hcode⟩ | ⟨he, hcode⟩ <;> subst he hcode
  · rw [pbstx_loop0_ret ((rx_step_len_pos s c b o _ hb).trans
      (rx_payload_fail_timeout s _ o.msgid b o.payload bs rest hlen))]
    rfl
  · rw [pbstx_loop0_ret ((rx_step_len_pos s c b o _ hb).trans
      (rx_payload_fail_reset s _ o.msgid b o.payload bs rest hlen))]
    rfl

theorem C3_payload_timeout_resync_witness :
    pbstx_receive [] ⟨0, 0, RxSt.lenSt⟩ ⟨5, [], 0⟩
        [Tok.byte 2, Tok.byte 7, Tok.timeout] =
      ⟨Q_TIMEOUT, ⟨0, PIOS_CRC_updateByte 0 2, RxSt.waitStart⟩,
       ⟨5, [7], 2⟩, [], [], [Alert.fail]⟩ :=
  C3_payload_timeout_resync 0 0 2 ⟨5, [], 0⟩ [7] [] Tok.timeout Q_TIMEOUT
    (by decide) (by decide) (Or.inl ⟨rfl, rfl⟩)

/-- C4: a timeout or channel reset on the single-byte read while the
receiver is idle in `PR_WAIT_START` makes `pbstx_receive` return the
timeout/reset code at once, with no alert signalled and the receiver state
untouched — the condition is not treated as corruption. -/
theorem C4_idle_timeout_no_fault (s c : Nat) (o : RxOut)
    (rest : List Tok) :
    (pbstx_receive [] ⟨s, c, RxSt.waitStart⟩ o (Tok.timeout :: rest) =
      ⟨Q_TIMEOUT, ⟨s, c, RxSt.waitStart⟩, o, rest, [], []⟩) ∧
    (pbstx_receive [] ⟨s, c, RxSt.waitStart⟩ o (Tok.reset :: rest) =
      ⟨Q_RESET, ⟨s, c, RxSt.waitStart⟩, o, rest, [], []⟩) := by
  constructor
  · unfold pbstx_receive
    rw [pbstx_loop0_ret (show rx_step ⟨s, c, RxSt.waitStart⟩ o
      (Tok.timeout :: rest) = StepRes.ret Q_TIMEOUT ⟨s, c, RxSt.waitStart⟩
        o rest [] from rfl)]
    rfl
  · unfold pbstx_receive
    rw [pbstx_loop0_ret (show rx_step ⟨s, c, RxSt.waitStart⟩ o
      (Tok.reset :: rest) = StepRes.ret Q_RESET ⟨s, c, RxSt.waitStart⟩
        o rest [] from rfl)]
    rfl

/-- C5: a byte stream holding a corrupted frame (wrong trailing CRC byte)
immediately followed by a well-formed frame: the first `pbstx_receive`
call consumes the corrupted frame, signals `AL_FAIL` and returns
`MSG_RESET`; the next call, continuing from the state and channel the
first one left, decodes the second frame, delivering its message-id,
payload and length, signalling `AL_NORMAL` and returning `MSG_OK`. -/
theorem C5_resync_after_corrupt_frame (s0 c0 s1 m1 : Nat) (pl1 : List Nat)
    (cb1 s2 m2 : Nat) (pl2 : List Nat) (cb2 : Nat) (o : RxOut)
    (hbad : frameCrc s1 m1 pl1 ≠ cb1) (hgood : frameCrc s2 m2 pl2 = cb2)
    (_hl1 : pl1.length ≤ MAX_PAYLOAD) (_hl2 : pl2.length ≤ MAX_PAYLOAD) :
    (pbstx_receive [] ⟨s0, c0, RxSt.waitStart⟩ o
        (frameToks s1 m1 pl1 cb1 ++ frameToks s2 m2 pl2 cb2) =
      ⟨MSG_RESET, ⟨s1, frameCrc s1 m1 pl1, RxSt.waitStart⟩,
       ⟨m1, if pl1 = [] then o.payload else pl1, pl1.length⟩,
       frameToks s2 m2 pl2 cb2, [], [Alert.fail]⟩) ∧
    (pbstx_receive [] ⟨s1, frameCrc s1 m1 pl1, RxSt.waitStart⟩
        ⟨m1, if pl1 = [] then o.payload else pl1, pl1.length⟩
        (frameToks s2 m2 pl2 cb2) =
      ⟨MSG_OK, ⟨s2, frameCrc s2 m2 pl2, RxSt.waitStart⟩,
       ⟨m2,
        if pl2 = [] then (if pl1 = [] then o.payload else pl1) else pl2,
        pl2.length⟩,
       [], [], [Alert.normal]⟩) := by
  constructor
  · rw [pbstx_receive_frame s0 c0 s1 m1 pl1 cb1 o
      (frameToks s2 m2 pl2 cb2)]
    simp [hbad]
  · have h2 := pbstx_receive_frame s1 (frameCrc s1 m1 pl1) s2 m2 pl2 cb2
      ⟨m1, if pl1 = [] then o.payload else pl1, pl1.length⟩ []
    rw [List.append_nil] at h2
    rw [h2]
    simp [hgood]

theorem C5_resync_after_corrupt_frame_witness :
    (pbstx_receive [] ⟨0, 0, RxSt.waitStart⟩ ⟨0, [], 0⟩
        (frameToks 1 2 [9] 0 ++ frameToks 3 4 [5, 6] 187) =
      ⟨MSG_RESET, ⟨1, frameCrc 1 2 [9], RxSt.waitStart⟩, ⟨2, [9], 1⟩,
       frameToks 3 4 [5, 6] 187, [], [Alert.fail]⟩) ∧
    (pbstx_receive [] ⟨1, frameCrc 1 2 [9], RxSt.waitStart⟩ ⟨2, [9], 1⟩
        (frameToks 3 4 [5, 6] 187) =
      ⟨MSG_OK, ⟨3, frameCrc 3 4 [5, 6], RxSt.waitStart⟩, ⟨4, [5, 6], 2⟩,
       [], [], [Alert.normal]⟩) :=
  C5_resync_after_corrupt_frame 0 0 1 2 [9] 0 3 4 [5, 6] 187 ⟨0, [], 0⟩
    (by decide) (by decide) (by decide) (by decide)

/-- C6: a timed-out or reset write during `pbstx_send` aborts the
remainder of the frame: if the header write fails nothing is written and
the failure code is returned; if the payload write fails only the header
has been written; if the trailing-CRC write fails only header and payload
have been written; in no case is a retry attempted. -/
theorem C6_send_aborts_on_write_failure (msgid : Nat) (payload : List Nat)
    (payload_len tx_seq : Nat) (wr : List WRes) (e : WRes)
    (he : e ≠ WRes.ok) :
    (pbstx_send msgid payload payload_len tx_seq (e :: wr) =
      ⟨wfail e, (tx_seq + 1) % 256, []⟩) ∧
    (0 < payload_len →
      pbstx_send msgid payload payload_len tx_seq (WRes.ok :: e :: wr) =
        ⟨wfail e, (tx_seq + 1) % 256,
         [HDR_START, tx_seq % 256, msgid, payload_len]⟩) ∧
    (0 < payload_len →
      pbstx_send msgid payload payload_len tx_seq
          (WRes.ok :: WRes.ok :: e :: wr) =
        ⟨wfail e, (tx_seq + 1) % 256,
         [HDR_START, tx_seq % 256, msgid, payload_len] ++ payload⟩) ∧
    (payload_len = 0 →
      pbstx_send msgid payload payload_len tx_seq (WRes.ok :: e :: wr) =
        ⟨wfail e, (tx_seq + 1) % 256,
         [HDR_START, tx_seq % 256, msgid, payload_len]⟩) := by
  refine ⟨?_, ?_, ?_, ?_⟩
  · cases e with
    | ok => exact absurd rfl he
    | wtimeout => simp [pbstx_send, wpop, wfail]
    | wreset => simp [pbstx_send, wpop, wfail]
  · intro hp
    cases e with
    | ok => exact absurd rfl he
    | wtimeout => simp [pbstx_send, wpop, wfail, hp]
    | wreset => simp [pbstx_send, wpop, wfail, hp]
  · intro hp
    cases e with
    | ok => exact absurd rfl he
    | wtimeout => simp [pbstx_send, wpop, wfail, hp]
    | wreset => simp [pbstx_send, wpop, wfail, hp]
  · intro hp
    cases e with
    | ok => exact absurd rfl he
    | wtimeout => simp [pbstx_send, wpop, wfail, hp]
    | wreset => simp [pbstx_send, wpop, wfail, hp]

theorem C6_send_aborts_on_write_failure_witness :
    (pbstx_send 1 [3, 4] 2 0 [WRes.wtimeout] = ⟨Q_TIMEOUT, 1, []⟩) ∧
    (pbstx_send 1 [3, 4] 2 0 [WRes.ok, WRes.wreset] =
      ⟨Q_RESET, 1, [HDR_START, 0, 1, 2]⟩) ∧
    (pbstx_send 1 [3, 4] 2 0 [WRes.ok, WRes.ok, WRes.wtimeout] =
      ⟨Q_TIMEOUT, 1, [HDR_START, 0, 1, 2] ++ [3, 4]⟩) :=
  ⟨(C6_send_aborts_on_write_failure 1 [3, 4] 2 0 [] WRes.wtimeout
      (by decide)).1,
   (C6_send_aborts_on_write_failure 1 [3, 4] 2 0 [] WRes.wreset
      (by decide)).2.1 (by decide),
   (C6_send_aborts_on_write_failure 1 [3, 4] 2 0 [] WRes.wtimeout
      (by decide)).2.2.1 (by decide)⟩

/-- C7: in the `PR_LEN` state, a received length byte of zero moves the
state machine directly to `PR_CRC` with no payload read performed (the
channel is untouched past the length byte); a non-zero length byte `b`
proceeds, in the same iteration, to a bulk payload read of exactly `b`
bytes and then to `PR_CRC`. -/
theorem C7_len_zero_skips_payload (s c : Nat) (o : RxOut)
    (rest : List Tok) :
    (rx_step ⟨s, c, RxSt.lenSt⟩ o (Tok.byte 0 :: rest) =
      StepRes.cont ⟨s, PIOS_CRC_updateByte c 0, RxSt.crcSt⟩
        ⟨o.msgid, o.payload, 0⟩ rest []) ∧
    (∀ (b : Nat) (bs : List Nat), b ≠ 0 → bs.length = b →
      rx_step ⟨s, c, RxSt.lenSt⟩ o
          (Tok.byte b :: (bs.map Tok.byte ++ rest)) =
        StepRes.cont
          ⟨s, PIOS_CRC_updateCRC (PIOS_CRC_updateByte c b) bs,
           RxSt.crcSt⟩
          ⟨o.msgid, bs, b⟩ rest []) := by
  constructor
  · exact rx_step_len_zero s c o rest
  · intro b bs hb hlen
    subst hlen
    exact (rx_step_len_pos s c bs.length o _ hb).trans
      (rx_payload_exact s _ o.msgid o.payload bs rest)

theorem C7_len_zero_skips_payload_witness :
    (rx_step ⟨0, 0, RxSt.lenSt⟩ ⟨9, [], 0⟩ [Tok.byte 0, Tok.reset] =
      StepRes.cont ⟨0, PIOS_CRC_updateByte 0 0, RxSt.crcSt⟩
        ⟨9, [], 0⟩ [Tok.reset] []) ∧
    (rx_step ⟨0, 0, RxSt.lenSt⟩ ⟨9, [], 0⟩
        (Tok.byte 2 :: ([5, 6].map Tok.byte ++ [])) =
      StepRes.cont
        ⟨0, PIOS_CRC_updateCRC (PIOS_CRC_updateByte 0 2) [5, 6],
         RxSt.crcSt⟩
        ⟨9, [5, 6], 2⟩ [] []) :=
  ⟨(C7_len_zero_skips_payload 0 0 ⟨9, [], 0⟩ [Tok.reset]).1,
   (C7_len_zero_skips_payload 0 0 ⟨9, [], 0⟩ []).2 2 [5, 6]
     (by decide) rfl⟩

/-- C8: `pbstx_receive` reads the external termination flag exactly once
per outer loop iteration: a run that makes `k` full iterations consumes
exactly `k` `false` readings plus the final `true` one, and the moment
`true` is observed the loop exits returning `MSG_RESET` without any
further channel read (the channel is left exactly as it was). -/
theorem C8_termination_checked_once_per_iteration :
    (∀ (ts : List Bool) (p : RxPersist) (o : RxOut) (chan : List Tok),
      pbstx_receive (true :: ts) p o chan =
        ⟨MSG_RESET, p, o, chan, ts, []⟩) ∧
    (∀ (k s c : Nat) (o : RxOut) (extra : List Tok) (ts : List Bool),
      pbstx_receive (List.replicate k false ++ true :: ts)
          ⟨s, c, RxSt.waitStart⟩ o
          (List.replicate k (Tok.byte 0) ++ extra) =
        ⟨MSG_RESET, ⟨s, c, RxSt.waitStart⟩, o, extra, ts, []⟩) := by
  constructor
  · intro ts p o chan
    exact pbstx_loop_term rfl
  · intro k s c o extra ts
    induction k with
    | zero => simpa using
        (pbstx_loop_term rfl :
          pbstx_loop (true :: ts) ⟨s, c, RxSt.waitStart⟩ o extra [] = _)
    | succ n ih =>
        unfold pbstx_receive
        rw [List.replicate_succ, List.replicate_succ, List.cons_append,
          List.cons_append]
        rw [pbstx_loop_cont
          (show (false :: (List.replicate n false ++ true :: ts)).headD
            false = false from rfl)
          (rx_step_wait_miss s c 0 o _ (by decide))]
        simpa [pbstx_receive] using ih

/-- C9: a timeout or channel reset on the single-byte read while the
receiver is mid-frame in `PR_SEQ`, `PR_MSGID`, `PR_LEN` or `PR_CRC`
makes `pbstx_receive` return the timeout/reset code with the static state
(`rx_state`, `pkt_crc`, `seq`) and the out-parameters unchanged and no
alert signalled, so decoding resumes from the same state on the next
call. -/
theorem C9_midframe_byte_timeout_keeps_state (s c : Nat) (st : RxSt)
    (o : RxOut) (rest : List Tok)
    (_hst : st = RxSt.seqSt ∨ st = RxSt.msgidSt ∨ st = RxSt.lenSt ∨
      st = RxSt.crcSt) :
    (pbstx_receive [] ⟨s, c, st⟩ o (Tok.timeout :: rest) =
      ⟨Q_TIMEOUT, ⟨s, c, st⟩, o, rest, [], []⟩) ∧
    (pbstx_receive [] ⟨s, c, st⟩ o (Tok.reset :: rest) =
      ⟨Q_RESET, ⟨s, c, st⟩, o, rest, [], []⟩) := by
  constructor
  · unfold pbstx_receive
    rw [pbstx_loop0_ret (show rx_step ⟨s, c, st⟩ o (Tok.timeout :: rest) =
      StepRes.ret Q_TIMEOUT ⟨s, c, st⟩ o rest [] from rfl)]
    rfl
  · unfold pbstx_receive
    rw [pbstx_loop0_ret (show rx_step ⟨s, c, st⟩ o (Tok.reset :: rest) =
      StepRes.ret Q_RESET ⟨s, c, st⟩ o rest [] from rfl)]
    rfl

theorem C9_midframe_byte_timeout_keeps_state_witness :
    (pbstx_receive [] ⟨3, 9, RxSt.seqSt⟩ ⟨1, [2], 1⟩
        [Tok.timeout, Tok.byte 5] =
      ⟨Q_TIMEOUT, ⟨3, 9, RxSt.seqSt⟩, ⟨1, [2], 1⟩, [Tok.byte 5], [],
       []⟩) ∧
    (pbstx_receive [] ⟨3, 9, RxSt.seqSt⟩ ⟨1, [2], 1⟩
        [Tok.reset, Tok.byte 5] =
      ⟨Q_RESET, ⟨3, 9, RxSt.seqSt⟩, ⟨1, [2], 1⟩, [Tok.byte 5], [], []⟩) :=
  C9_midframe_byte_timeout_keeps_state 3 9 RxSt.seqSt ⟨1, [2], 1⟩
    [Tok.byte 5] (Or.inl rfl)

/-- C10: `pbstx_receive` fills the out-parameters while the frame is still
being parsed, so after a CRC-mismatch `MSG_RESET` return they already hold
the rejected frame's message-id, length and payload bytes — there is no
rollback on error. -/
theorem C10_outparams_hold_rejected_frame (s0 c0 s1 m : Nat)
    (pl : List Nat) (cb : Nat) (o : RxOut)
    (hbad : frameCrc s1 m pl ≠ cb) (_hl : pl.length ≤ MAX_PAYLOAD) :
    pbstx_receive [] ⟨s0, c0, RxSt.waitStart⟩ o (frameToks s1 m pl cb) =
      ⟨MSG_RESET, ⟨s1, frameCrc s1 m pl, RxSt.waitStart⟩,
       ⟨m, if pl = [] then o.payload else pl, pl.length⟩, [], [],
       [Alert.fail]⟩ := by
  have h := pbstx_receive_frame s0 c0 s1 m pl cb o []
  rw [List.append_nil] at h
  rw [h]
  simp [hbad]

theorem C10_outparams_hold_rejected_frame_witness :
    pbstx_receive [] ⟨0, 0, RxSt.waitStart⟩ ⟨0, [], 0⟩
        (frameToks 8 17 [42] 53) =
      ⟨MSG_RESET, ⟨8, frameCrc 8 17 [42], RxSt.waitStart⟩, ⟨17, [42], 1⟩,
       [], [], [Alert.fail]⟩ :=
  C10_outparams_hold_rejected_frame 0 0 8 17 [42] 53 ⟨0, [], 0⟩
    (by decide) (by decide)
